import Mathlib

/-!
Verification development for the tracs activity database subsystem
(src/tracs/activity.py and src/tracs/db.py), written as a shallow
embedding in Lean 4.

Modelling conventions, applied throughout:
* Python `datetime` values are abstracted to `Option Nat` timestamps
  (a `datetime` object is always truthy in Python, `None` is falsy).
* Python `time`-typed durations are abstracted to `Option Nat` second
  counts (a `time` object is always truthy in Python 3.5+).
* Python `float` fields are modelled as `Option Rat`; the claims under
  study only concern null handling, sums, max and min, none of which
  depend on floating-point rounding.
* Python truthiness is modelled per type: `None`, `0`, `0.0`, the empty
  string and the empty list are falsy, everything else is truthy.
* Mutation (`copy=False`, in-place dict assignment) is modelled by
  explicit state passing: every operation returns the new store.
-/

/-! ## Python truthiness of the field value types of `Activity` -/

/-- Truthiness of a Python `int` (`0` is falsy). -/
def natTruthy (n : Nat) : Bool := n ≠ 0

/-- Truthiness of an optional Python `int` (`None` and `0` are falsy). -/
def optIntTruthy (v : Option Int) : Bool :=
  match v with
  | none => false
  | some n => n ≠ 0

/-- Truthiness of an optional Python `float` (`None` and `0.0` are falsy). -/
def optRatTruthy (v : Option Rat) : Bool :=
  match v with
  | none => false
  | some q => q ≠ 0

/-- Truthiness of an optional Python `str` (`None` and `""` are falsy). -/
def optStrTruthy (v : Option String) : Bool :=
  match v with
  | none => false
  | some s => s ≠ ""

/-- Truthiness of a Python `str` (`""` is falsy). -/
def strTruthy (s : String) : Bool := s ≠ ""

/-- Truthiness of a Python `list` (`[]` is falsy). -/
def listTruthy (l : List String) : Bool := !l.isEmpty

/-- Truthiness of an optional Python `datetime` or `time` object: such an
object is always truthy, so only `None` is falsy. -/
def optObjTruthy (v : Option Nat) : Bool := v.isSome

/-! ## The Activity record (src/tracs/activity.py, dataclass `Activity`)

The embedding carries the fields that the claims under study touch,
with the dataclass defaults of the source: `id` defaults to `0`, list
fields default to `[]`, `timezone` defaults to the local timezone name
(abstracted to an opaque constant), and every other field defaults to
`None`. -/

/-- Abstraction of `tzlocal.get_localzone_name()`, the default of the
`timezone` field. Its concrete value never matters to the claims; it is
a non-empty (hence truthy) string. -/
def localZoneName : String := "Europe/Berlin"

/-- Shallow embedding of the `Activity` dataclass of src/tracs/activity.py
(the fields exercised by the claims). -/
structure Activity where
  id : Nat := 0
  name : Option String := none
  uids : List String := []
  tags : List String := []
  time : Option Nat := none
  time_end : Option Nat := none
  localtime : Option Nat := none
  localtime_end : Option Nat := none
  timezone : String := localZoneName
  duration : Option Nat := none
  duration_moving : Option Nat := none
  distance : Option Rat := none
  ascent : Option Rat := none
  descent : Option Rat := none
  elevation_max : Option Rat := none
  elevation_min : Option Rat := none
  speed_max : Option Rat := none
  heartrate : Option Int := none
  heartrate_max : Option Int := none
  heartrate_min : Option Int := none
  calories : Option Int := none
  deriving DecidableEq, Repr

/-- Default-constructed `Activity` (all dataclass defaults). -/
def defaultActivity : Activity := {}

/-- Modelled from the spec: the `PROTECTED` field-metadata marker and its
placement are referenced by `Activity.__init_from_others__` but are not
defined in the sources under src/; per the spec, "Protected fields (`id`)
are never touched" by a non-forced merge, so exactly the `id` field is
marked protected. -/
def protectedField (fieldName : String) : Bool := fieldName == "id"

/-! ## The per-field merge loop of `Activity.__init_from_others__`
(src/tracs/activity.py lines 159-171)

The source iterates, for each dataclass field, over the other activities
in order; at the first truthy value it assigns the value unless the field
is protected (or `force` is set, in which case it always assigns and
keeps scanning, so the last truthy value wins). -/

/-- Faithful embedding of the inner loop of `__init_from_others__` for a
single field: `truthy` is the Python truthiness test of the field's type,
`prot` says whether the field carries the `PROTECTED` marker, `cur` is
the field's current value on `self`, and the list holds the field's
values on the `others` in order. -/
def mergeLoop (truthy : α → Bool) (prot force : Bool) (cur : α) : List α → α
  | [] => cur
  | v :: rest =>
    if truthy v then
      let cur' := if !prot || force then v else cur
      if !force then cur' else mergeLoop truthy prot force cur' rest
    else
      mergeLoop truthy prot force cur rest

/-- Embedding of `Activity.__init_from_others__(others, force)`: applies
the merge loop to every modelled field. Only `id` is protected (see
`protectedField`). -/
def initFromOthers (self : Activity) (others : List Activity) (force : Bool) : Activity where
  id := mergeLoop natTruthy (protectedField "id") force self.id (others.map (·.id))
  name := mergeLoop optStrTruthy false force self.name (others.map (·.name))
  uids := mergeLoop listTruthy false force self.uids (others.map (·.uids))
  tags := mergeLoop listTruthy false force self.tags (others.map (·.tags))
  time := mergeLoop optObjTruthy false force self.time (others.map (·.time))
  time_end := mergeLoop optObjTruthy false force self.time_end (others.map (·.time_end))
  localtime := mergeLoop optObjTruthy false force self.localtime (others.map (·.localtime))
  localtime_end := mergeLoop optObjTruthy false force self.localtime_end (others.map (·.localtime_end))
  timezone := mergeLoop strTruthy false force self.timezone (others.map (·.timezone))
  duration := mergeLoop optObjTruthy false force self.duration (others.map (·.duration))
  duration_moving := mergeLoop optObjTruthy false force self.duration_moving (others.map (·.duration_moving))
  distance := mergeLoop optRatTruthy false force self.distance (others.map (·.distance))
  ascent := mergeLoop optRatTruthy false force self.ascent (others.map (·.ascent))
  descent := mergeLoop optRatTruthy false force self.descent (others.map (·.descent))
  elevation_max := mergeLoop optRatTruthy false force self.elevation_max (others.map (·.elevation_max))
  elevation_min := mergeLoop optRatTruthy false force self.elevation_min (others.map (·.elevation_min))
  speed_max := mergeLoop optRatTruthy false force self.speed_max (others.map (·.speed_max))
  heartrate := mergeLoop optIntTruthy false force self.heartrate (others.map (·.heartrate))
  heartrate_max := mergeLoop optIntTruthy false force self.heartrate_max (others.map (·.heartrate_max))
  heartrate_min := mergeLoop optIntTruthy false force self.heartrate_min (others.map (·.heartrate_min))
  calories := mergeLoop optIntTruthy false force self.calories (others.map (·.calories))

/-- Embedding of the constructor call `Activity(others=[...])`: the record
starts from the dataclass defaults and `__post_init__` dispatches to
`__init_from_others__(others, force=False)`. -/
def activityFromOthers (others : List Activity) : Activity :=
  initFromOthers defaultActivity others false

/-! ## The spec-modelled `Activity.union`

`ActivityDb.upsert_activity` (src/tracs/db.py line 267) and the test
suite (src/test/test_activity.py, `test_union`) call `Activity.union`,
but the method's definition is not among the sources under src/; it is
therefore modelled from the spec section 4.1. -/

/-- Lexicographic order on uid strings by character code points, the
order `sorted()` uses on Python strings. (`String`'s own order in
Mathlib does not reduce in the kernel, so the order is stated on the
character lists.) -/
def uidLe (a b : String) : Prop := a.data ≤ b.data

instance : DecidableRel uidLe := fun a b => (inferInstance : Decidable (a.data ≤ b.data))

instance : IsTotal String uidLe := ⟨fun a b => le_total a.data b.data⟩

instance : IsTrans String uidLe := ⟨fun _ _ _ h1 h2 => le_trans h1 h2⟩

/-- Deduplicate, then re-sort, a list of uids — the spec's "the union of
all uids from self and others, deduplicated, re-sorted". -/
def dedupSortUids (l : List String) : List String :=
  List.insertionSort uidLe l.dedup

/-- Modelled from the spec: `Activity.union(others, force, copy)` is
missing from src/ (only its callers and tests are present). Per spec
section 4.1: for each mergeable field take the first non-null value
across `self` then `others` in order (`force=False`), or the last
non-null value (`force=True`); the protected `id` field is never touched
when `force=False`; `uids` is special-cased to the deduplicated,
re-sorted union of all uids. `copy=False` mutates `self` in place and
returns it, which the state-passing embedding renders by storing the
returned record over `self`. Non-null means `isSome` (resp. anything for
the never-null `timezone`). -/
def unionActivity (self : Activity) (others : List Activity) (force : Bool) : Activity where
  id := if force then ((self.id :: others.map (·.id)).filter natTruthy).getLast?.getD self.id else self.id
  name := if force then ((self.name :: others.map (·.name)).filter (·.isSome)).getLast?.getD self.name
          else ((self.name :: others.map (·.name)).find? (·.isSome)).getD self.name
  uids := dedupSortUids (self.uids ++ others.flatMap (·.uids))
  tags := if force then ((self.tags :: others.map (·.tags)).filter listTruthy).getLast?.getD self.tags
          else ((self.tags :: others.map (·.tags)).find? listTruthy).getD self.tags
  time := if force then ((self.time :: others.map (·.time)).filter (·.isSome)).getLast?.getD self.time
          else ((self.time :: others.map (·.time)).find? (·.isSome)).getD self.time
  time_end := if force then ((self.time_end :: others.map (·.time_end)).filter (·.isSome)).getLast?.getD self.time_end
              else ((self.time_end :: others.map (·.time_end)).find? (·.isSome)).getD self.time_end
  localtime := if force then ((self.localtime :: others.map (·.localtime)).filter (·.isSome)).getLast?.getD self.localtime
               else ((self.localtime :: others.map (·.localtime)).find? (·.isSome)).getD self.localtime
  localtime_end := if force then ((self.localtime_end :: others.map (·.localtime_end)).filter (·.isSome)).getLast?.getD self.localtime_end
                   else ((self.localtime_end :: others.map (·.localtime_end)).find? (·.isSome)).getD self.localtime_end
  timezone := if force then ((self.timezone :: others.map (·.timezone)).filter strTruthy).getLast?.getD self.timezone
              else ((self.timezone :: others.map (·.timezone)).find? strTruthy).getD self.timezone
  duration := if force then ((self.duration :: others.map (·.duration)).filter (·.isSome)).getLast?.getD self.duration
              else ((self.duration :: others.map (·.duration)).find? (·.isSome)).getD self.duration
  duration_moving := if force then ((self.duration_moving :: others.map (·.duration_moving)).filter (·.isSome)).getLast?.getD self.duration_moving
                     else ((self.duration_moving :: others.map (·.duration_moving)).find? (·.isSome)).getD self.duration_moving
  distance := if force then ((self.distance :: others.map (·.distance)).filter (·.isSome)).getLast?.getD self.distance
              else ((self.distance :: others.map (·.distance)).find? (·.isSome)).getD self.distance
  ascent := if force then ((self.ascent :: others.map (·.ascent)).filter (·.isSome)).getLast?.getD self.ascent
            else ((self.ascent :: others.map (·.ascent)).find? (·.isSome)).getD self.ascent
  descent := if force then ((self.descent :: others.map (·.descent)).filter (·.isSome)).getLast?.getD self.descent
             else ((self.descent :: others.map (·.descent)).find? (·.isSome)).getD self.descent
  elevation_max := if force then ((self.elevation_max :: others.map (·.elevation_max)).filter (·.isSome)).getLast?.getD self.elevation_max
                   else ((self.elevation_max :: others.map (·.elevation_max)).find? (·.isSome)).getD self.elevation_max
  elevation_min := if force then ((self.elevation_min :: others.map (·.elevation_min)).filter (·.isSome)).getLast?.getD self.elevation_min
                   else ((self.elevation_min :: others.map (·.elevation_min)).find? (·.isSome)).getD self.elevation_min
  speed_max := if force then ((self.speed_max :: others.map (·.speed_max)).filter (·.isSome)).getLast?.getD self.speed_max
               else ((self.speed_max :: others.map (·.speed_max)).find? (·.isSome)).getD self.speed_max
  heartrate := if force then ((self.heartrate :: others.map (·.heartrate)).filter (·.isSome)).getLast?.getD self.heartrate
               else ((self.heartrate :: others.map (·.heartrate)).find? (·.isSome)).getD self.heartrate
  heartrate_max := if force then ((self.heartrate_max :: others.map (·.heartrate_max)).filter (·.isSome)).getLast?.getD self.heartrate_max
                   else ((self.heartrate_max :: others.map (·.heartrate_max)).find? (·.isSome)).getD self.heartrate_max
  heartrate_min := if force then ((self.heartrate_min :: others.map (·.heartrate_min)).filter (·.isSome)).getLast?.getD self.heartrate_min
                   else ((self.heartrate_min :: others.map (·.heartrate_min)).find? (·.isSome)).getD self.heartrate_min
  calories := if force then ((self.calories :: others.map (·.calories)).filter (·.isSome)).getLast?.getD self.calories
              else ((self.calories :: others.map (·.calories)).find? (·.isSome)).getD self.calories

/-! ## Construction from parts (`Activity.__init_from_parts__`,
src/tracs/activity.py lines 173-201) -/

/-- Modelled from the spec: `sum_times` is imported from `tracs.utils`,
which is not among the sources under src/. Per spec section 4.1,
durations are summed by total seconds; absent (`None`) entries are
skipped (the repository's tests expect a zero duration, not `None`, when
no input carries one). -/
def sum_times (l : List (Option Nat)) : Option Nat :=
  some ((l.filterMap id).foldl (· + ·) 0)

/-- Embedding of the Python expression
`s if (s := sum(v for v in values if v)) else None` used for the
distance/ascent/descent fields of `__init_from_parts__`: sum the truthy
values; a zero (falsy) sum is turned into `None`. -/
def pyTruthySumRat (values : List (Option Rat)) : Option Rat :=
  let s := ((values.filter optRatTruthy).filterMap id).foldl (· + ·) 0
  if s = 0 then none else some s

/-- Same as `pyTruthySumRat` for the `int`-typed `calories` field. -/
def pyTruthySumInt (values : List (Option Int)) : Option Int :=
  let s := ((values.filter optIntTruthy).filterMap id).foldl (· + ·) 0
  if s = 0 then none else some s

/-- Embedding of `max(l) if (l := [v for v in values if v is not None]) else None`. -/
def pyMaxRat (values : List (Option Rat)) : Option Rat :=
  match values.filterMap id with
  | [] => none
  | x :: xs => some (xs.foldl max x)

/-- Embedding of `min(l)` over the values that are not `None`. -/
def pyMinRat (values : List (Option Rat)) : Option Rat :=
  match values.filterMap id with
  | [] => none
  | x :: xs => some (xs.foldl min x)

/-- Embedding of `max(l)` over present values of an `int` field. -/
def pyMaxInt (values : List (Option Int)) : Option Int :=
  match values.filterMap id with
  | [] => none
  | x :: xs => some (xs.foldl max x)

/-- Embedding of `min(l)` over present values of an `int` field. -/
def pyMinInt (values : List (Option Int)) : Option Int :=
  match values.filterMap id with
  | [] => none
  | x :: xs => some (xs.foldl min x)

/-- Embedding of `Activity.__init_from_parts__(other_parts, force)` on a
non-empty parts list `p :: rest` (the source indexes `other_parts[0]` and
`other_parts[-1]`, so the empty list would raise `IndexError`): first/last
selection for the time fields, `sum_times` for the durations, truthy sums
for distance/ascent/descent/calories and max/min over present values for
the extrema. All remaining fields keep their values on `self`. -/
def initFromParts (self : Activity) (p : Activity) (rest : List Activity) : Activity :=
  let parts := p :: rest
  { self with
    time := p.time
    localtime := p.localtime
    time_end := (parts.getLast (by simp [parts])).time_end
    localtime_end := (parts.getLast (by simp [parts])).localtime_end
    timezone := p.timezone
    duration := sum_times (parts.map (·.duration))
    duration_moving := sum_times (parts.map (·.duration_moving))
    distance := pyTruthySumRat (parts.map (·.distance))
    ascent := pyTruthySumRat (parts.map (·.ascent))
    descent := pyTruthySumRat (parts.map (·.descent))
    elevation_max := pyMaxRat (parts.map (·.elevation_max))
    elevation_min := pyMinRat (parts.map (·.elevation_min))
    speed_max := pyMaxRat (parts.map (·.speed_max))
    heartrate_max := pyMaxInt (parts.map (·.heartrate_max))
    heartrate_min := pyMinInt (parts.map (·.heartrate_min))
    calories := pyTruthySumInt (parts.map (·.calories)) }

/-- Embedding of the constructor call `Activity(other_parts=[...])`:
defaults, then `__post_init__` dispatches to `__init_from_parts__`.
`none` renders the `IndexError` the source raises on an empty list. -/
def activityFromParts (parts : List Activity) : Option Activity :=
  match parts with
  | [] => none
  | p :: rest => some (initFromParts defaultActivity p rest)

/-! ## Spec-language reference definitions

These definitions follow the words of the spec sentences under test (not
the source); the theorems compare them against the embeddings above. -/

/-- The spec's merge rule for `force=False`: "take the first non-null
value encountered across the sources in order". -/
def specFirstNonNull (values : List (Option String)) : Option (Option String) :=
  values.find? (·.isSome)

/-- The spec's null-safe sum over an `int` field: "sum across records
that have a value (null-safe sum, skipping None, yielding None if no
record has a value)". -/
def specNullSafeSumInt (values : List (Option Int)) : Option Int :=
  match values.filterMap id with
  | [] => none
  | ys => some (ys.foldl (· + ·) 0)

/-! ## CPython small-int set model and `ActivityDb._next_id`
(src/tracs/db.py lines 248-250)

The source computes `set(key_range).difference(set(d.keys())).pop()`.
`set.pop()` removes an unspecified element; which one is determined by
CPython's open-addressing hash table: `hash(n) = n` for small
non-negative ints, the table size is a power of two (at least 8, grown
to the first power of two above `4 * used` whenever the fill reaches 3/5
of `size - 1` after an insert), an element lands at slot `n % size`
(collisions probe upward — exact for every collision-free insertion,
which covers all inserts this development evaluates), and `pop()` on a
freshly built set scans from slot 0 upward and removes the first
occupied slot. A set built from `range(1, m + 2)` stores `k` at slot `k`
(ascending inserts never collide), so iterating it for `difference`
yields ascending order, and membership in `set(d.keys())` is membership
in the key list. -/

/-- Scan for a free slot: from index `i` upward (wrapping), with fuel.
Out-of-range probes (which cannot arise) give up. -/
def findFreeSlot (slots : List (Option Nat)) (i : Nat) : Nat → Option Nat
  | 0 => none
  | fuel + 1 =>
    if slots.get? i = some none then some i
    else if (slots.get? i).isNone then none
    else findFreeSlot slots ((i + 1) % slots.length) fuel

/-- Occupied entries of the table in ascending slot order (the iteration
order of a CPython set, with the `pop` finger at 0). -/
def tableElems (slots : List (Option Nat)) : List Nat := slots.filterMap id

/-- Place `x` in the first free probe slot starting at `x % size`; if `x`
is already present the table is unchanged. -/
def slotsInsert (slots : List (Option Nat)) (x : Nat) : List (Option Nat) :=
  if some x ∈ slots then slots
  else
    match findFreeSlot slots (x % slots.length) slots.length with
    | some i => slots.set i (some x)
    | none => slots

/-- Smallest power of two of the form `8 * 2 ^ k` strictly above `m`
(CPython's `newsize = 8; while newsize <= minused: newsize <<= 1`),
computed with a fuel argument. -/
def growLoop (m : Nat) : Nat → Nat → Nat
  | 0, ns => ns
  | fuel + 1, ns => if ns ≤ m then growLoop m fuel (ns * 2) else ns

/-- Table size after a resize triggered with `minused = m`. -/
def growSize (m : Nat) : Nat := growLoop m (m + 1) 8

/-- CPython `set_add_entry`: skip if present, else insert, then resize to
`growSize (4 * fill)` (rebuilding in iteration order) once the fill
reaches 3/5 of `mask`. -/
def setAddEntry (slots : List (Option Nat)) (x : Nat) : List (Option Nat) :=
  if some x ∈ slots then slots
  else
    let s1 := slotsInsert slots x
    if (tableElems s1).length * 5 ≥ (s1.length - 1) * 3 then
      (tableElems s1).foldl slotsInsert (List.replicate (growSize ((tableElems s1).length * 4)) none)
    else s1

/-- Build a CPython set table by inserting the elements of `xs` in order
into a fresh minimum-size table. -/
def pySetOfList (xs : List Nat) : List (Option Nat) :=
  xs.foldl setAddEntry (List.replicate 8 none)

/-- CPython `set.pop()` on a freshly built table: the entry in the lowest
occupied slot (`none` renders the `KeyError` on an empty set). -/
def pySetPop (slots : List (Option Nat)) : Option Nat :=
  (tableElems slots).head?

/-- Python `max(keys)` for a list of `Nat` keys (callers guard against
the empty list). -/
def listMaxNat (keys : List Nat) : Nat := keys.foldl Nat.max 0

/-- Embedding of `ActivityDb._next_id(d)` over the key list of `d` in
insertion order: `key_range = range(1, max(keys) + 2) if keys else [1]`,
then `set(key_range).difference(set(keys)).pop()`. The difference
iterates the range set in ascending order, keeps the non-keys, inserts
them into a fresh table and `pop()` takes its lowest occupied slot. -/
def nextId (keys : List Nat) : Option Nat :=
  pySetPop (pySetOfList
    ((if keys.isEmpty then [1] else List.range' 1 (listMaxNat keys + 1)).filter
      (fun x => decide (x ∉ keys))))

/-! ## Resources and the ActivityDb store (src/tracs/db.py)

`Activities` and `Resources` (the collection classes behind
`self._activities` / `self._resources`) are imported from modules that
are not among the sources under src/. Modelled from the spec: each is an
id-keyed mapping that is also iterable; the embedding renders it as an
association list in insertion order (Python dicts iterate in insertion
order), with `id_map` being the live mapping itself, so that
`resource_map[id] = r` replaces the stored record. -/

/-- Shallow embedding of the `Resource` record (the fields the claims
touch: the identifying pair `(uid, path)`, the db-assigned `id`, and an
abstract payload standing for the remaining fields). -/
structure Resource where
  id : Nat := 0
  uid : String := ""
  path : String := ""
  payload : String := ""
  deriving DecidableEq, Repr

/-- Association-list update with Python dict semantics: replace the value
at the first occurrence of `k`, or append a new entry. -/
def dictSet (entries : List (Nat × α)) (k : Nat) (v : α) : List (Nat × α) :=
  match entries with
  | [] => [(k, v)]
  | (k', v') :: rest => if k' = k then (k, v) :: rest else (k', v') :: dictSet rest k v

/-- Association-list lookup (first occurrence). -/
def dictGet (entries : List (Nat × α)) (k : Nat) : Option α :=
  match entries with
  | [] => none
  | (k', v') :: rest => if k' = k then some v' else dictGet rest k

/-- Shallow embedding of `ActivityDb`'s in-memory collections: activities
and resources, each an id-keyed insertion-ordered mapping. -/
structure ActivityDb where
  activities : List (Nat × Activity) := []
  resources : List (Nat × Resource) := []
  deriving DecidableEq, Repr

/-- The `ActivityDb.activities` property: the stored activities as a list
in iteration order. -/
def dbActivities (db : ActivityDb) : List Activity := db.activities.map (·.2)

/-- The `ActivityDb.resources` property, as a list in iteration order. -/
def dbResources (db : ActivityDb) : List Resource := db.resources.map (·.2)

/-- Keys currently in use in the activities mapping. -/
def activityKeys (db : ActivityDb) : List Nat := db.activities.map (·.1)

/-- Keys currently in use in the resources mapping. -/
def resourceKeys (db : ActivityDb) : List Nat := db.resources.map (·.1)

/-- Embedding of `ActivityDb.get_activity_by_uids(uids)` (src/tracs/db.py
lines 353-354): the first stored activity sharing at least one uid with
the argument list. -/
def get_activity_by_uids (db : ActivityDb) (uids : List String) : Option Activity :=
  (dbActivities db).find? (fun a => uids.any (fun uid => a.uids.contains uid))

/-- Embedding of `ActivityDb.get_resource_by_uid_path(uid, path)`
(src/tracs/db.py lines 367-368). -/
def get_resource_by_uid_path (db : ActivityDb) (uid path : String) : Option Resource :=
  (dbResources db).find? (fun r => r.uid = uid ∧ r.path = path)

/-- Embedding of `ActivityDb.insert_activity(a)` (src/tracs/db.py lines
257-260): assign `a.id = _next_id(...)`, store at that key, return the
id. `.pop()` on the (provably non-empty, see `nextId_isSome`) difference
set cannot fail, so its result is unwrapped with a default. -/
def insert_activity (db : ActivityDb) (a : Activity) : ActivityDb × Nat :=
  let n := (nextId (activityKeys db)).getD 0
  ({ db with activities := dictSet db.activities n { a with id := n } }, n)

/-- Embedding of `ActivityDb.upsert_activity(a)` (src/tracs/db.py lines
265-270). The match branch merges into the stored record via
`existing.union(others=[a], copy=False)` (in-place, rendered by storing
the union result back at the existing key) and returns the existing id.
The insert branch calls `insert_activity` but falls through WITHOUT a
`return` statement, so the Python function yields `None` there — the
embedding returns `none` accordingly. -/
def upsert_activity (db : ActivityDb) (a : Activity) : ActivityDb × Option Nat :=
  match get_activity_by_uids db a.uids with
  | some existing =>
    ({ db with activities := dictSet db.activities existing.id (unionActivity existing [a] false) },
      some existing.id)
  | none => ((insert_activity db a).1, none)

/-- Embedding of `ActivityDb.insert_resource(r)` (src/tracs/db.py lines
274-277). -/
def insert_resource (db : ActivityDb) (r : Resource) : ActivityDb × Nat :=
  let n := (nextId (resourceKeys db)).getD 0
  ({ db with resources := dictSet db.resources n { r with id := n } }, n)

/-- Embedding of `ActivityDb.upsert_resource(r)` (src/tracs/db.py lines
282-287): on a `(uid, path)` match the stored resource is replaced
outright (`self.resource_map[existing.id] = resource`) and the existing
id is returned; otherwise `insert_resource` runs and its fresh id is
returned. -/
def upsert_resource (db : ActivityDb) (r : Resource) : ActivityDb × Nat :=
  match get_resource_by_uid_path db r.uid r.path with
  | some existing => ({ db with resources := dictSet db.resources existing.id r }, existing.id)
  | none => insert_resource db r

/-- Embedding of `ActivityDb.find_by_classifier(classifier)`
(src/tracs/db.py lines 390-394): all activities with at least one uid
satisfying `uid.startswith(classifier)` — note: the bare classifier
string, no colon separator is appended. -/
def find_by_classifier (db : ActivityDb) (classifier : String) : List Activity :=
  (dbActivities db).filter (fun a => a.uids.any (fun uid => classifier.data.isPrefixOf uid.data))

/-- Python exceptions surfacing in the embedded operations. -/
inductive PyError where
  | indexError
  | valueError
  | keyError
  | runtimeError
  deriving DecidableEq, Repr

/-- Modelled from the spec: `a.starttime`, the min/max key of
`find_first`/`find_last`, is an attribute of the full `Activity` class
not present in the reduced dataclass under src/ ("start time in UTC");
it is modelled as the `time` field. Python's `min`/`max` compare the key
values; comparison of `None` timestamps would itself raise, so the
ordering is taken on the optional timestamp with `None` first. -/
def starttime (a : Activity) : Option Nat := a.time

/-- Comparison of optional timestamps used by the `min`/`max` folds
(`None` sorts first). -/
def optNatLt (x y : Option Nat) : Bool :=
  match x, y with
  | none, none => false
  | none, some _ => true
  | some _, none => false
  | some n, some m => n < m

/-- Embedding of `ActivityDb.find_first(classifier=None)` (src/tracs/db.py
lines 396-401): `min(activities, key=lambda a: a.starttime)`, which
raises `ValueError` on an empty sequence. -/
def find_first (db : ActivityDb) (classifier : Option String) : Except PyError Activity :=
  let activities := match classifier with
    | some c => find_by_classifier db c
    | none => dbActivities db
  match activities with
  | [] => .error .valueError
  | a :: rest => .ok (rest.foldl (fun acc b => if optNatLt (starttime b) (starttime acc) then b else acc) a)

/-- Embedding of `ActivityDb.find_last(classifier=None)` (src/tracs/db.py
lines 403-408): `max(activities, key=lambda a: a.starttime)`, raising
`ValueError` on an empty sequence. -/
def find_last (db : ActivityDb) (classifier : Option String) : Except PyError Activity :=
  let activities := match classifier with
    | some c => find_by_classifier db c
    | none => dbActivities db
  match activities with
  | [] => .error .valueError
  | a :: rest => .ok (rest.foldl (fun acc b => if optNatLt (starttime acc) (starttime b) then b else acc) a)

/-! ## The layered filesystem and `ActivityDb.save`
(src/tracs/db.py lines 161-165 and 138-143)

A layer maps a file name to its content and modification timestamp.
`save()` returns immediately when the db is read-only or when no
underlay filesystem exists; otherwise it runs
`copy_file_if(overlay, f, underlay, f, 'newer')` for each of the five
fixed db files: the file is copied when the destination is missing or
strictly older than the source, and left untouched when the destination
is as new as the source or newer. -/

/-- One stored file: content and modification time. -/
structure FileEntry where
  content : String
  mtime : Nat
  deriving DecidableEq, Repr

/-- A filesystem layer: file name to entry. -/
def Layer : Type := String → Option FileEntry

/-- The five fixed db file names, in the iteration order of `DB_FILES`
(src/tracs/db.py lines 41-47). -/
def dbFiles : List String :=
  ["activities.json", "index.json", "metadata.json", "resources.json", "schema.json"]

/-- The two-layer db filesystem plus the read-only flag. `underlay` is
`none` when no underlay filesystem exists. -/
structure DbFileSystem where
  readOnly : Bool
  underlay : Option Layer
  overlay : Layer

/-- Pointwise layer update. -/
def layerSet (l : Layer) (f : String) (e : FileEntry) : Layer :=
  fun g => if g = f then some e else l g

/-- Embedding of `copy_file_if(src, f, dst, f, 'newer')` from the fs
library: copy when the destination misses the file or is strictly older;
a missing source file would raise in the library and never occurs in
`save()` (both layers carry all five files), rendered as no-op. -/
def copyFileIfNewer (src : Layer) (dst : Layer) (f : String) : Layer :=
  match src f, dst f with
  | some e, some d => if d.mtime < e.mtime then layerSet dst f e else dst
  | some e, none => layerSet dst f e
  | none, _ => dst

/-- Embedding of `ActivityDb.save()`: no-op when read-only or when the
underlay is missing, else promote each of the five db files
overlay→underlay under the 'newer' condition. -/
def save (fs : DbFileSystem) : DbFileSystem :=
  if fs.readOnly then fs
  else
    match fs.underlay with
    | none => fs
    | some u => { fs with underlay := some (dbFiles.foldl (copyFileIfNewer fs.overlay) u) }

/-! ## `restore_db` (src/tracs/db.py lines 474-483)

The body computes
`sorted(list(ctx.backup_path.glob('[0-9]*_[0-9]*')), key=lambda p: p.name)[-1]`
— which raises `IndexError` on an empty backup directory, since `[-1]`
on an empty list raises `IndexError` — asks for confirmation unless
`ctx.force`, and copies the backup over the live db directory keeping
only the five db files. The surrounding `try` catches ONLY
`RuntimeError`; `IndexError` is not a `RuntimeError` subclass, so the
"no backups" case propagates to the caller. -/

/-- The application context slice `restore_db` touches: the backup
directory names matching the glob pattern, the `force` flag, the answer
the user would give to the confirmation prompt, the live db directory
and the contents of each backup directory. -/
structure RestoreCtx where
  backups : List String
  force : Bool
  confirmAnswer : Bool
  live : String → Option String
  backupFiles : String → String → Option String

/-- Effect of `copytree(source, target, ignore=..., dirs_exist_ok=True)`
with the ignore filter keeping only the five db files. -/
def copytreeDbFiles (ctx : RestoreCtx) (src : String) : RestoreCtx :=
  { ctx with live := fun f =>
      if dbFiles.contains f then
        match ctx.backupFiles src f with
        | some c => some c
        | none => ctx.live f
      else ctx.live f }

/-- The `try`-block body of `restore_db`. -/
def restoreDbBody (ctx : RestoreCtx) : Except PyError RestoreCtx :=
  match (List.insertionSort uidLe ctx.backups).getLast? with
  | none => .error .indexError
  | some src => if ctx.force || ctx.confirmAnswer then .ok (copytreeDbFiles ctx src) else .ok ctx

/-- Embedding of `restore_db(ctx)`: the body under an
`except RuntimeError` handler that logs, prints "no backups found" and
returns normally — but only for `RuntimeError`. -/
def restore_db (ctx : RestoreCtx) : Except PyError RestoreCtx :=
  match restoreDbBody ctx with
  | .error .runtimeError => .ok ctx
  | r => r

/-- The spec's null-safe sum for a `float` field (skip `None`, `None` if
no record has a value). -/
def specNullSafeSumRat (values : List (Option Rat)) : Option Rat :=
  match values.filterMap id with
  | [] => none
  | ys => some (ys.foldl (· + ·) 0)

/-- The promotion rule of the spec sentence for `save()`: for one file,
copy overlay→underlay only if the overlay's entry is strictly newer (or
the underlay misses the file); an underlay entry with an equal or newer
timestamp is untouched. -/
def promoteRule (src dst : Layer) (f : String) : Option FileEntry :=
  match src f, dst f with
  | some e, some d => if d.mtime < e.mtime then some e else some d
  | some e, none => some e
  | none, _ => dst f

/-- Concrete store for the `upsert_resource` witness: one resource with
pair `("polar:7", "a.json")` under id 2. -/
def resDbW : ActivityDb :=
  { resources := [(2, { id := 2, uid := "polar:7", path := "a.json", payload := "old" })] }

/-- Resource matching the stored pair (fresh content). -/
def resMatchW : Resource := { id := 0, uid := "polar:7", path := "a.json", payload := "new" }

/-- Resource with a new pair (same uid, different path). -/
def resNewW : Resource := { id := 0, uid := "polar:7", path := "b.json", payload := "new" }

/-- Concrete activity for the union witness (uids deliberately not in
sorted order). -/
def actA3 : Activity := { id := 7, uids := ["polar:2", "a:1"] }

/-- Second concrete activity for the union witness, uid-disjoint from
`actA3`. -/
def actB3 : Activity := { id := 9, uids := ["b:9"] }

/-- Underlay layer for the `save` witness: one file, timestamp 1. -/
def uLayerW : Layer :=
  fun f => if f = "activities.json" then some { content := "old", mtime := 1 } else none

/-- Overlay layer for the `save` witness: same file, newer timestamp. -/
def ovLayerW : Layer :=
  fun f => if f = "activities.json" then some { content := "new", mtime := 5 } else none

/-- Read-write filesystem for the `save` witness. -/
def fsW : DbFileSystem := { readOnly := false, underlay := some uLayerW, overlay := ovLayerW }

/-- Read-only filesystem for the `save` witness no-op branch. -/
def roFsW : DbFileSystem := { readOnly := true, underlay := some uLayerW, overlay := ovLayerW }

/-! # Lemmas and claim theorems -/

/-! ## The merge loop with `force=False` takes the first truthy value -/

/-- With `force=False` and an unprotected field, the merge loop of
`__init_from_others__` returns the first truthy value of the others, or
keeps the current value when no other has one. -/
theorem mergeLoop_false_false (t : α → Bool) (cur : α) (xs : List α) :
    mergeLoop t false false cur xs = (xs.find? t).getD cur := by
  induction xs with
  | nil => rfl
  | cons x xs ih =>
    by_cases h : t x = true
    · simp [mergeLoop, h, List.find?_cons_of_pos _ h]
    · simp [mergeLoop, h, List.find?_cons_of_neg _ h, ih]

/-- With `force=False`, a protected field is never assigned: the loop
breaks at the first truthy value without touching it. -/
theorem mergeLoop_protected (t : α → Bool) (cur : α) (xs : List α) :
    mergeLoop t true false cur xs = cur := by
  induction xs with
  | nil => rfl
  | cons x xs ih =>
    by_cases h : t x = true
    · simp [mergeLoop, h]
    · simp [mergeLoop, h, ih]

/-- C2, counterexample. The claim says a non-forced merge "sets each
mergeable field to the first non-null value encountered across the
sources in order". The source line `if value := getattr( o, f.name )`
tests Python truthiness, not nullness: constructing an activity from one
other whose `name` is the empty string (non-null but falsy) followed by
one whose name is "X" yields "X", although the first non-null name
across the sources is the empty string. -/
theorem activityFromOthers_first_nonnull_refuted :
    specFirstNonNull
        ([({ name := some "" } : Activity), { name := some "X" }].map (·.name)) =
      some (some "") ∧
    (activityFromOthers [({ name := some "" } : Activity), { name := some "X" }]).name =
      some "X" := by
  constructor
  · rfl
  · rfl

/-- C2, amended: constructing an `Activity` from a list of others
(`force=False`) sets each mergeable field to the first TRUTHY value
(non-null and non-falsy: `None`, `0`, `0.0`, `""` and `[]` are all
skipped) encountered across the sources in order, never overriding a
field once set; the protected `id` field is never touched, so the
constructed activity keeps the unset id `0`. -/
theorem activityFromOthers_first_truthy (others : List Activity) :
    (activityFromOthers others).id = 0 ∧
    (activityFromOthers others).name = ((others.map (·.name)).find? optStrTruthy).getD none ∧
    (activityFromOthers others).uids = ((others.map (·.uids)).find? listTruthy).getD [] ∧
    (activityFromOthers others).tags = ((others.map (·.tags)).find? listTruthy).getD [] ∧
    (activityFromOthers others).time = ((others.map (·.time)).find? optObjTruthy).getD none ∧
    (activityFromOthers others).time_end = ((others.map (·.time_end)).find? optObjTruthy).getD none ∧
    (activityFromOthers others).localtime = ((others.map (·.localtime)).find? optObjTruthy).getD none ∧
    (activityFromOthers others).localtime_end = ((others.map (·.localtime_end)).find? optObjTruthy).getD none ∧
    (activityFromOthers others).timezone = ((others.map (·.timezone)).find? strTruthy).getD localZoneName ∧
    (activityFromOthers others).duration = ((others.map (·.duration)).find? optObjTruthy).getD none ∧
    (activityFromOthers others).duration_moving = ((others.map (·.duration_moving)).find? optObjTruthy).getD none ∧
    (activityFromOthers others).distance = ((others.map (·.distance)).find? optRatTruthy).getD none ∧
    (activityFromOthers others).ascent = ((others.map (·.ascent)).find? optRatTruthy).getD none ∧
    (activityFromOthers others).descent = ((others.map (·.descent)).find? optRatTruthy).getD none ∧
    (activityFromOthers others).elevation_max = ((others.map (·.elevation_max)).find? optRatTruthy).getD none ∧
    (activityFromOthers others).elevation_min = ((others.map (·.elevation_min)).find? optRatTruthy).getD none ∧
    (activityFromOthers others).speed_max = ((others.map (·.speed_max)).find? optRatTruthy).getD none ∧
    (activityFromOthers others).heartrate = ((others.map (·.heartrate)).find? optIntTruthy).getD none ∧
    (activityFromOthers others).heartrate_max = ((others.map (·.heartrate_max)).find? optIntTruthy).getD none ∧
    (activityFromOthers others).heartrate_min = ((others.map (·.heartrate_min)).find? optIntTruthy).getD none ∧
    (activityFromOthers others).calories = ((others.map (·.calories)).find? optIntTruthy).getD none := by
  refine ⟨?_, ?_, ?_, ?_, ?_, ?_, ?_, ?_, ?_, ?_, ?_, ?_, ?_, ?_, ?_, ?_, ?_, ?_, ?_, ?_, ?_⟩
  · simpa [activityFromOthers, initFromOthers, protectedField, defaultActivity] using
      mergeLoop_protected natTruthy 0 (others.map (·.id))
  all_goals
    simp [activityFromOthers, initFromOthers, defaultActivity, mergeLoop_false_false]

/-! ## find_by_classifier (C9) -/

/-- Activity used in the classifier counterexample: its only uid has
classifier `polarsteps`, not `polar`. -/
def polarStepsActivity : Activity := { id := 1, uids := ["polarsteps:1"] }

/-- C9, counterexample. The claim says `find_by_classifier('polar')`
returns exactly the activities with a uid starting with `polar:`
(classifier plus colon separator). The source tests
`uid.startswith( classifier )` with no colon appended, so an activity
whose only uid is `polarsteps:1` — which does not start with `polar:` —
is returned for classifier `polar`. -/
theorem find_by_classifier_colon_refuted :
    find_by_classifier { activities := [(1, polarStepsActivity)] } "polar" =
      [polarStepsActivity] ∧
    (∀ uid ∈ polarStepsActivity.uids, ("polar:".data.isPrefixOf uid.data) = false) := by
  constructor
  · rfl
  · decide

/-- C9, amended: `find_by_classifier(c)` returns exactly those activities
having at least one uid that starts with the bare classifier string `c`
(no colon separator is appended, so uids of classifiers that merely
extend `c` textually are also matched). -/
theorem find_by_classifier_bare_string (db : ActivityDb) (c : String) (a : Activity) :
    a ∈ find_by_classifier db c ↔
      a ∈ dbActivities db ∧ ∃ uid ∈ a.uids, c.data.isPrefixOf uid.data := by
  simp [find_by_classifier, List.mem_filter]

/-! ## find_first / find_last on the empty collection (C10) -/

/-- C10: on a database whose activities collection is empty, `find_first`
and `find_last` without a classifier reduce `min`/`max` over an empty
sequence: the embedding is partial there and raises `ValueError` rather
than returning an absent result. -/
theorem find_first_last_empty_raise :
    find_first ({ } : ActivityDb) none = .error .valueError ∧
    find_last ({ } : ActivityDb) none = .error .valueError := by
  constructor
  · rfl
  · rfl

/-! ## restore_db on an empty backup directory (C5) -/

/-- C5: with no backups present, `sorted(...)[-1]` raises `IndexError`,
and the surrounding handler catches only `RuntimeError` (the message
"no backups found" in that handler shows the intent), so `restore_db`
raises `IndexError` to its caller instead of reporting via console and
returning normally. -/
theorem restore_db_raises_on_no_backups :
    restore_db
        { backups := [], force := false, confirmAnswer := false,
          live := fun _ => none, backupFiles := fun _ _ => none } =
      .error .indexError := by
  rfl

/-! ## upsert_activity (C1) -/

/-- C1: the insert branch of `upsert_activity` calls `insert_activity`
but falls through without `return` (src/tracs/db.py line 270), so on a
database containing no activity sharing a uid with the argument the
function stores the activity under the fresh id 1 yet returns `None`,
not the new id — contradicting both the claim and the function's own
`-> int` annotation (`insert_activity` itself returns the id). -/
theorem upsert_activity_insert_branch_returns_none :
    (upsert_activity ({ } : ActivityDb) { uids := ["polar:101"] }).2 = none ∧
    (upsert_activity ({ } : ActivityDb) { uids := ["polar:101"] }).1.activities =
      [(1, { uids := ["polar:101"], id := 1 })] ∧
    (insert_activity ({ } : ActivityDb) { uids := ["polar:101"] }).2 = 1 := by
  refine ⟨rfl, ?_, rfl⟩
  rfl

/-! ## _next_id (C4) -/

/-- C4: `_next_id` returns `set(range(1, max+2)).difference(keys).pop()`.
The three spec examples hold — `{1,2,4} ↦ 3`, `{} ↦ 1`, `{1,2,3} ↦ 4` —
but `pop()` removes the entry in the lowest hash-table slot, not the
smallest element: over keys `{1,2,4,5,6,7}` the difference set is
`{3, 8}`, `8` hashes to slot `8 mod 8 = 0` and is popped, although the
smallest unused positive id is `3`. -/
theorem next_id_gap_filling_refuted :
    nextId [1, 2, 4] = some 3 ∧
    nextId [] = some 1 ∧
    nextId [1, 2, 3] = some 4 ∧
    nextId [1, 2, 4, 5, 6, 7] = some 8 ∧
    (3 ∉ [1, 2, 4, 5, 6, 7] ∧ 3 < 8) := by
  refine ⟨by decide, by decide, by decide, by decide, by decide, by decide⟩

/-! ## Soundness and non-emptiness of the set model behind `_next_id` -/

/-- Membership in the occupied entries is membership of the wrapped value
in the slot list. -/
theorem mem_tableElems {y : Nat} {s : List (Option Nat)} :
    y ∈ tableElems s ↔ some y ∈ s := by
  simp [tableElems, List.mem_filterMap]

/-- A successful probe lands on a free slot. -/
theorem findFreeSlot_free {s : List (Option Nat)} {i j fuel : Nat}
    (h : findFreeSlot s i fuel = some j) : s.get? j = some none := by
  induction fuel generalizing i with
  | zero => simp [findFreeSlot] at h
  | succ fuel ih =>
    rw [findFreeSlot] at h
    by_cases h1 : s.get? i = some none
    · rw [if_pos h1] at h
      cases h
      exact h1
    · rw [if_neg h1] at h
      by_cases h2 : (s.get? i).isNone
      · rw [if_pos h2] at h
        cases h
      · rw [if_neg h2] at h
        exact ih h

/-- Inserting into a table adds no entry other than the inserted value. -/
theorem mem_tableElems_slotsInsert {y x : Nat} {s : List (Option Nat)}
    (h : y ∈ tableElems (slotsInsert s x)) : y = x ∨ y ∈ tableElems s := by
  unfold slotsInsert at h
  by_cases hm : some x ∈ s
  · rw [if_pos hm] at h
    exact Or.inr h
  · rw [if_neg hm] at h
    rcases hp : findFreeSlot s (x % s.length) s.length with _ | i
    · rw [hp] at h
      exact Or.inr h
    · rw [hp] at h
      rcases List.mem_or_eq_of_mem_set (mem_tableElems.mp h) with h' | h'
      · exact Or.inr (mem_tableElems.mpr h')
      · exact Or.inl (by injection h')

/-- Folding inserts over a list adds no entry outside the list. -/
theorem mem_tableElems_foldl_slotsInsert {y : Nat} {xs : List Nat}
    {init : List (Option Nat)}
    (h : y ∈ tableElems (xs.foldl slotsInsert init)) :
    y ∈ xs ∨ y ∈ tableElems init := by
  induction xs generalizing init with
  | nil => exact Or.inr h
  | cons x xs ih =>
    rcases ih (by simpa using h) with h' | h'
    · exact Or.inl (List.mem_cons_of_mem _ h')
    · rcases mem_tableElems_slotsInsert h' with h'' | h''
      · exact Or.inl (h'' ▸ List.mem_cons_self _ _)
      · exact Or.inr h''

/-- A fresh table holds no entries. -/
theorem tableElems_replicate (n : Nat) : tableElems (List.replicate n none) = [] := by
  simp [tableElems]

/-- `set_add_entry` adds no entry other than the inserted value, through
the possible resize. -/
theorem mem_tableElems_setAddEntry {y x : Nat} {s : List (Option Nat)}
    (h : y ∈ tableElems (setAddEntry s x)) : y = x ∨ y ∈ tableElems s := by
  unfold setAddEntry at h
  by_cases hm : some x ∈ s
  · rw [if_pos hm] at h
    exact Or.inr h
  · rw [if_neg hm] at h
    by_cases hr : (tableElems (slotsInsert s x)).length * 5 ≥ ((slotsInsert s x).length - 1) * 3
    · rw [if_pos hr] at h
      rcases mem_tableElems_foldl_slotsInsert h with h' | h'
      · exact mem_tableElems_slotsInsert (mem_tableElems.mpr (mem_tableElems.mp h'))
      · rw [tableElems_replicate] at h'
        cases h'
    · rw [if_neg hr] at h
      exact mem_tableElems_slotsInsert h

/-- Building a set from a list adds no entry outside the list. -/
theorem mem_pySetOfList {y : Nat} {xs : List Nat}
    (h : y ∈ tableElems (pySetOfList xs)) : y ∈ xs := by
  unfold pySetOfList at h
  have aux : ∀ (l : List Nat) (init : List (Option Nat)),
      y ∈ tableElems (l.foldl setAddEntry init) → y ∈ l ∨ y ∈ tableElems init := by
    intro l
    induction l with
    | nil => intro init h'; exact Or.inr h'
    | cons z zs ih =>
      intro init h'
      rcases ih _ (by simpa using h') with h'' | h''
      · exact Or.inl (List.mem_cons_of_mem _ h'')
      · rcases mem_tableElems_setAddEntry h'' with h3 | h3
        · exact Or.inl (h3 ▸ List.mem_cons_self _ _)
        · exact Or.inr h3
  rcases aux xs _ h with h' | h'
  · exact h'
  · rw [tableElems_replicate] at h'
    cases h'

/-- Setting a free slot to a value adds exactly one occupied entry. -/
theorem length_tableElems_set {s : List (Option Nat)} {i x : Nat}
    (h : s.get? i = some none) :
    (tableElems (s.set i (some x))).length = (tableElems s).length + 1 := by
  rw [List.get?_eq_getElem?] at h
  induction s generalizing i with
  | nil => simp at h
  | cons hd tl ih =>
    cases i with
    | zero =>
      simp at h
      subst h
      simp [tableElems]
    | succ i =>
      simp at h
      cases hd with
      | none => simpa [tableElems] using ih h
      | some v => simpa [tableElems] using ih h

/-- An insert never loses occupied entries. -/
theorem length_tableElems_slotsInsert (s : List (Option Nat)) (x : Nat) :
    (tableElems s).length ≤ (tableElems (slotsInsert s x)).length := by
  unfold slotsInsert
  by_cases hm : some x ∈ s
  · rw [if_pos hm]
  · rw [if_neg hm]
    rcases hp : findFreeSlot s (x % s.length) s.length with _ | i
    · exact le_rfl
    · rw [length_tableElems_set (findFreeSlot_free hp)]
      exact Nat.le_succ _

/-- Folding inserts never loses occupied entries. -/
theorem length_tableElems_foldl_slotsInsert (xs : List Nat) (init : List (Option Nat)) :
    (tableElems init).length ≤ (tableElems (xs.foldl slotsInsert init)).length := by
  induction xs generalizing init with
  | nil => exact le_rfl
  | cons x xs ih =>
    calc (tableElems init).length
        ≤ (tableElems (slotsInsert init x)).length := length_tableElems_slotsInsert init x
      _ ≤ _ := by simpa using ih (slotsInsert init x)

/-- An all-free table of positive size absorbs its first insert. -/
theorem slotsInsert_replicate_fill {n x : Nat} (hn : 0 < n) :
    (tableElems (slotsInsert (List.replicate n none) x)).length = 1 := by
  have hmem : ¬ (some x ∈ List.replicate (α := Option Nat) n none) := by
    intro hc
    cases List.eq_of_mem_replicate hc
  have hget : (List.replicate (α := Option Nat) n none).get? (x % n) = some none := by
    have hlt : x % n < n := Nat.mod_lt _ hn
    simp [List.get?_eq_getElem?, hlt]
  unfold slotsInsert
  rw [if_neg hmem]
  have hfind : findFreeSlot (List.replicate (α := Option Nat) n none) (x % (List.replicate (α := Option Nat) n none).length) (List.replicate (α := Option Nat) n none).length = some (x % n) := by
    have hlen : (List.replicate (α := Option Nat) n none).length = n := List.length_replicate _ _
    rcases n with _ | m
    · exact absurd hn (by simp)
    · rw [hlen, findFreeSlot, if_pos (by simpa [hlen] using hget)]
  rw [hfind, length_tableElems_set hget, tableElems_replicate]
  rfl

/-- The resize target is at least the minimum table size 8. -/
theorem growLoop_ge (m : Nat) : ∀ (fuel ns : Nat), ns ≤ growLoop m fuel ns := by
  intro fuel
  induction fuel with
  | zero => intro ns; exact le_rfl
  | succ fuel ih =>
    intro ns
    rw [growLoop]
    by_cases h : ns ≤ m
    · rw [if_pos h]
      calc ns ≤ ns * 2 := by omega
        _ ≤ growLoop m fuel (ns * 2) := ih _
    · rw [if_neg h]


/-- The resize target is positive (it is at least the minimum size 8). -/
theorem growSize_pos (m : Nat) : 0 < growSize m := by
  unfold growSize
  have := growLoop_ge m (m + 1) 8
  omega

/-- Rebuilding a non-empty element list into a fresh table keeps at least
one occupied slot. -/
theorem foldl_slotsInsert_fresh_fill_pos {l : List Nat} {G : Nat}
    (hG : 0 < G) (hl : l ≠ []) :
    1 ≤ (tableElems (l.foldl slotsInsert (List.replicate G none))).length := by
  rcases l with _ | ⟨e, rest⟩
  · exact absurd rfl hl
  · simp only [List.foldl_cons]
    have hfirst := slotsInsert_replicate_fill (x := e) hG
    calc (1 : Nat)
        = (tableElems (slotsInsert (List.replicate G none) e)).length := hfirst.symm
      _ ≤ _ := length_tableElems_foldl_slotsInsert rest _

/-- A table with at least one occupied entry keeps one through
`set_add_entry` (inserts and resizes never drop all entries). -/
theorem setAddEntry_fill_pos {s : List (Option Nat)} {x : Nat}
    (h : 1 ≤ (tableElems s).length) :
    1 ≤ (tableElems (setAddEntry s x)).length := by
  unfold setAddEntry
  by_cases hm : some x ∈ s
  · rw [if_pos hm]
    exact h
  · rw [if_neg hm]
    have h1 : 1 ≤ (tableElems (slotsInsert s x)).length :=
      le_trans h (length_tableElems_slotsInsert s x)
    by_cases hr : (tableElems (slotsInsert s x)).length * 5 ≥ ((slotsInsert s x).length - 1) * 3
    · rw [if_pos hr]
      exact foldl_slotsInsert_fresh_fill_pos (growSize_pos _) (List.length_pos.mp (by omega))
    · rw [if_neg hr]
      exact h1

/-- The very first insert into the fresh minimum-size table occupies one
slot. -/
theorem setAddEntry_replicate_fill (x : Nat) :
    1 ≤ (tableElems (setAddEntry (List.replicate 8 none) x)).length := by
  unfold setAddEntry
  have hmem : ¬ (some x ∈ List.replicate (α := Option Nat) 8 none) := by
    intro hc
    cases List.eq_of_mem_replicate hc
  rw [if_neg hmem]
  have hfill : (tableElems (slotsInsert (List.replicate 8 none) x)).length = 1 :=
    slotsInsert_replicate_fill (by norm_num)
  by_cases hr : (tableElems (slotsInsert (List.replicate 8 none) x)).length * 5 ≥ ((slotsInsert (List.replicate 8 none) x).length - 1) * 3
  · rw [if_pos hr]
    exact foldl_slotsInsert_fresh_fill_pos (growSize_pos _) (List.length_pos.mp (by omega))
  · rw [if_neg hr]
    rw [hfill]

/-- Building a set from a non-empty list yields a non-empty table. -/
theorem pySetOfList_fill_pos {xs : List Nat} (h : xs ≠ []) :
    1 ≤ (tableElems (pySetOfList xs)).length := by
  rcases xs with _ | ⟨x, rest⟩
  · exact absurd rfl h
  · unfold pySetOfList
    simp only [List.foldl_cons]
    have hfirst := setAddEntry_replicate_fill x
    have aux : ∀ (l : List Nat) (init : List (Option Nat)),
        1 ≤ (tableElems init).length →
        1 ≤ (tableElems (l.foldl setAddEntry init)).length := by
      intro l
      induction l with
      | nil => intro init hi; exact hi
      | cons z zs ih =>
        intro init hi
        simp only [List.foldl_cons]
        exact ih _ (setAddEntry_fill_pos hi)
    exact aux rest _ hfirst

/-- Every key is bounded by the fold maximum. -/
theorem le_listMaxNat {k : Nat} {keys : List Nat} (h : k ∈ keys) :
    k ≤ listMaxNat keys := by
  unfold listMaxNat
  have aux : ∀ (l : List Nat) (init : Nat),
      (∀ j ∈ l, j ≤ l.foldl Nat.max init) ∧ init ≤ l.foldl Nat.max init := by
    intro l
    induction l with
    | nil => intro init; exact ⟨by simp, le_rfl⟩
    | cons z zs ih =>
      intro init
      refine ⟨?_, ?_⟩
      · intro j hj
        rcases List.mem_cons.mp hj with hj | hj
        · subst hj
          calc j ≤ Nat.max init j := Nat.le_max_right _ _
            _ ≤ zs.foldl Nat.max (Nat.max init j) := (ih _).2
        · exact (ih _).1 j hj
      · calc init ≤ Nat.max init z := Nat.le_max_left _ _
          _ ≤ zs.foldl Nat.max (Nat.max init z) := (ih _).2
  exact (aux keys 0).1 k h

/-- A list with positive length has a first element. -/
theorem head_isSome_of_len {l : List Nat} (h : 1 ≤ l.length) : l.head?.isSome := by
  rcases l with _ | ⟨e, rest⟩
  · simp at h
  · rfl

/-- The first element belongs to the list. -/
theorem mem_of_head_some {l : List Nat} {n : Nat} (h : l.head? = some n) : n ∈ l := by
  rcases List.head?_eq_some_iff.mp h with ⟨ys, rfl⟩
  exact List.mem_cons_self _ _

/-- `_next_id` always produces an id: the difference set contains
`max(keys) + 1` (or `1` for an empty collection), so `pop()` cannot
fail. -/
theorem nextId_isSome (keys : List Nat) : (nextId keys).isSome := by
  unfold nextId pySetPop
  by_cases hk : keys.isEmpty
  · have : keys = [] := List.isEmpty_iff.mp hk
    subst this
    rfl
  · rw [if_neg hk]
    have hmem : listMaxNat keys + 1 ∈
        (List.range' 1 (listMaxNat keys + 1)).filter (fun x => decide (x ∉ keys)) := by
      rw [List.mem_filter]
      refine ⟨?_, ?_⟩
      · rw [List.mem_range']
        exact ⟨listMaxNat keys, by omega, by omega⟩
      · rw [decide_eq_true_eq]
        intro hc
        have := le_listMaxNat hc
        omega
    exact head_isSome_of_len (pySetOfList_fill_pos (List.ne_nil_of_mem hmem))

/-- `_next_id` never returns an id already in use: the popped entry comes
from the difference set, which excludes every key. -/
theorem nextId_not_mem {keys : List Nat} {n : Nat}
    (h : nextId keys = some n) : n ∉ keys := by
  unfold nextId pySetPop at h
  have hdm := mem_pySetOfList (mem_of_head_some h)
  have := List.of_mem_filter hdm
  exact of_decide_eq_true this

/-! ## upsert_resource (C6) -/

/-- Dict assignment followed by lookup at the same key yields the
assigned value. -/
theorem dictGet_dictSet (entries : List (Nat × α)) (k : Nat) (v : α) :
    dictGet (dictSet entries k v) k = some v := by
  induction entries with
  | nil => simp [dictSet, dictGet]
  | cons e rest ih =>
    by_cases h : e.1 = k
    · simp [dictSet, dictGet, h]
    · simp [dictSet, dictGet, h, ih]

/-- C6: `upsert_resource(r)` with a stored resource matching exactly the
pair `(r.uid, r.path)` replaces that stored resource outright with `r`
(no field-by-field merge — the stored value IS `r`) and returns the
existing resource's id unchanged; with no match it inserts `r` under a
fresh id disjoint from all ids currently in use and returns that id. -/
theorem upsert_resource_spec (db : ActivityDb) (r : Resource) :
    (∀ existing, get_resource_by_uid_path db r.uid r.path = some existing →
      (upsert_resource db r).2 = existing.id ∧
      dictGet (upsert_resource db r).1.resources existing.id = some r) ∧
    (get_resource_by_uid_path db r.uid r.path = none →
      (upsert_resource db r).2 ∉ resourceKeys db ∧
      dictGet (upsert_resource db r).1.resources (upsert_resource db r).2 =
        some { r with id := (upsert_resource db r).2 }) := by
  constructor
  · intro existing hex
    unfold upsert_resource
    rw [hex]
    exact ⟨rfl, dictGet_dictSet _ _ _⟩
  · intro hnone
    unfold upsert_resource
    rw [hnone]
    unfold insert_resource
    rcases hn : nextId (resourceKeys db) with _ | n
    · have := nextId_isSome (resourceKeys db)
      rw [hn] at this
      simp at this
    · simp only [hn, Option.getD_some]
      exact ⟨nextId_not_mem hn, dictGet_dictSet _ _ _⟩

/-- Witness for `upsert_resource_spec`: both branches exercised on
concrete stores — the match branch replaces outright and returns the
stored id 2; the insert branch allocates a fresh id not among the used
keys. -/
theorem upsert_resource_spec_witness :
    ((upsert_resource resDbW resMatchW).2 = 2 ∧
      dictGet (upsert_resource resDbW resMatchW).1.resources 2 = some resMatchW) ∧
    ((upsert_resource resDbW resNewW).2 ∉ resourceKeys resDbW ∧
      dictGet (upsert_resource resDbW resNewW).1.resources (upsert_resource resDbW resNewW).2 =
        some { resNewW with id := (upsert_resource resDbW resNewW).2 }) := by
  constructor
  · have h := (upsert_resource_spec resDbW resMatchW).1
      { id := 2, uid := "polar:7", path := "a.json", payload := "old" } (by rfl)
    exact ⟨h.1, h.2⟩
  · exact (upsert_resource_spec resDbW resNewW).2 (by rfl)

/-! ## union of disjoint activities (C3) -/

/-- The deduplicated re-sort is sorted. -/
theorem dedupSortUids_sorted (l : List String) :
    List.Sorted uidLe (dedupSortUids l) :=
  List.sorted_insertionSort uidLe l.dedup

/-- The deduplicated re-sort has no duplicates. -/
theorem dedupSortUids_nodup (l : List String) : (dedupSortUids l).Nodup :=
  ((List.perm_insertionSort uidLe l.dedup).symm).nodup (List.nodup_dedup l)

/-- The deduplicated re-sort keeps exactly the original elements. -/
theorem mem_dedupSortUids (u : String) (l : List String) :
    u ∈ dedupSortUids l ↔ u ∈ l := by
  rw [dedupSortUids, (List.perm_insertionSort uidLe l.dedup).mem_iff, List.mem_dedup]

/-- C3: for activities `a` and `b` sharing no uid,
`a.union([b], force=False)` yields a record whose `uids` is the
deduplicated, sorted union of the uids of `a` and `b` (set-union
semantics, not first- or last-wins) and whose `id` equals `a.id`. -/
theorem union_disjoint_uids (a b : Activity) (_h : ∀ u ∈ a.uids, u ∉ b.uids) :
    (List.Sorted uidLe (unionActivity a [b] false).uids ∧
      (unionActivity a [b] false).uids.Nodup ∧
      ∀ u, u ∈ (unionActivity a [b] false).uids ↔ u ∈ a.uids ∨ u ∈ b.uids) ∧
    (unionActivity a [b] false).id = a.id := by
  refine ⟨⟨?_, ?_, ?_⟩, rfl⟩
  · exact dedupSortUids_sorted _
  · exact dedupSortUids_nodup _
  · intro u
    rw [show (unionActivity a [b] false).uids = dedupSortUids (a.uids ++ b.uids) by
      simp [unionActivity]]
    rw [mem_dedupSortUids, List.mem_append]

/-- Witness for `union_disjoint_uids` at concrete uid-disjoint activities
with deliberately unsorted uids. -/
theorem union_disjoint_uids_witness :
    (∀ u ∈ actA3.uids, u ∉ actB3.uids) ∧
    ((List.Sorted uidLe (unionActivity actA3 [actB3] false).uids ∧
       (unionActivity actA3 [actB3] false).uids.Nodup ∧
       ∀ u, u ∈ (unionActivity actA3 [actB3] false).uids ↔ u ∈ actA3.uids ∨ u ∈ actB3.uids) ∧
     (unionActivity actA3 [actB3] false).id = actA3.id) :=
  ⟨by decide, union_disjoint_uids actA3 actB3 (by decide)⟩

/-! ## save (C7) -/

/-- A copy step for one file name leaves every other name unchanged. -/
theorem copyFileIfNewer_ne (src dst : Layer) {f g : String} (h : f ≠ g) :
    copyFileIfNewer src dst g f = dst f := by
  unfold copyFileIfNewer
  rcases hsg : src g with _ | e
  · rfl
  · rcases hdg : dst g with _ | d
    · show layerSet dst g e f = dst f
      simp [layerSet, h]
    · show (if d.mtime < e.mtime then layerSet dst g e else dst) f = dst f
      by_cases hm : d.mtime < e.mtime
      · rw [if_pos hm]
        simp [layerSet, h]
      · rw [if_neg hm]

/-- A copy step for one file name acts as the spec's promotion rule at
that name. -/
theorem copyFileIfNewer_self (src dst : Layer) (f : String) :
    copyFileIfNewer src dst f f = promoteRule src dst f := by
  unfold copyFileIfNewer promoteRule
  rcases hs : src f with _ | e
  · rfl
  · rcases hd : dst f with _ | d
    · show layerSet dst f e f = some e
      simp [layerSet]
    · show (if d.mtime < e.mtime then layerSet dst f e else dst) f =
        if d.mtime < e.mtime then some e else some d
      by_cases hm : d.mtime < e.mtime
      · rw [if_pos hm, if_pos hm]
        simp [layerSet]
      · rw [if_neg hm, if_neg hm]
        exact hd

/-- The promotion rule only looks at the destination through its value at
the file. -/
theorem promoteRule_congr (src : Layer) {dstA dstB : Layer} {f : String}
    (h : dstA f = dstB f) : promoteRule src dstA f = promoteRule src dstB f := by
  unfold promoteRule
  rw [h]

/-- Folding copy steps over names not containing `f` leaves `f`
unchanged. -/
theorem foldl_copy_not_mem (src : Layer) {names : List String} {f : String}
    (h : f ∉ names) (u : Layer) :
    (names.foldl (copyFileIfNewer src) u) f = u f := by
  induction names generalizing u with
  | nil => rfl
  | cons g rest ih =>
    have hfg : f ≠ g := fun hc => h (hc ▸ List.mem_cons_self _ _)
    have hfr : f ∉ rest := fun hc => h (List.mem_cons_of_mem _ hc)
    rw [List.foldl_cons, ih hfr, copyFileIfNewer_ne src u hfg]

/-- Folding copy steps over a duplicate-free name list applies the
promotion rule once at each listed name. -/
theorem foldl_copy_mem (src : Layer) {names : List String} {f : String}
    (hf : f ∈ names) (hnd : names.Nodup) (u : Layer) :
    (names.foldl (copyFileIfNewer src) u) f = promoteRule src u f := by
  induction names generalizing u with
  | nil => cases hf
  | cons g rest ih =>
    rw [List.foldl_cons]
    rcases List.mem_cons.mp hf with rfl | hfr
    · have hfr : f ∉ rest := (List.nodup_cons.mp hnd).1
      rw [foldl_copy_not_mem src hfr, copyFileIfNewer_self]
    · have hfg : f ≠ g := by
        rintro rfl
        exact (List.nodup_cons.mp hnd).1 hfr
      rw [ih hfr (List.nodup_cons.mp hnd).2,
        promoteRule_congr src (copyFileIfNewer_ne src u hfg)]

/-- C7: `save()` leaves the filesystem unchanged when the db is read-only
or no underlay exists; otherwise it promotes each of the five fixed db
files overlay→underlay exactly when the overlay's copy is newer
(strictly greater timestamp, decided per file; an underlay file with an
equal or newer timestamp is untouched), touches no other underlay file,
and never changes the overlay. -/
theorem save_spec (fs : DbFileSystem) :
    ((fs.readOnly = true ∨ fs.underlay = none) → save fs = fs) ∧
    (∀ u, fs.readOnly = false → fs.underlay = some u →
      (save fs).readOnly = false ∧ (save fs).overlay = fs.overlay ∧
      ∃ u', (save fs).underlay = some u' ∧
        (∀ f, f ∈ dbFiles → u' f = promoteRule fs.overlay u f) ∧
        (∀ f, f ∉ dbFiles → u' f = u f)) := by
  constructor
  · rintro (hro | hun)
    · unfold save
      rw [if_pos hro]
    · unfold save
      by_cases hro : fs.readOnly
      · rw [if_pos hro]
      · rw [if_neg hro, hun]
  · intro u hro hu
    unfold save
    rw [if_neg (by rw [hro]; exact Bool.false_ne_true), hu]
    refine ⟨hro, rfl, dbFiles.foldl (copyFileIfNewer fs.overlay) u, rfl, ?_, ?_⟩
    · intro f hf
      exact foldl_copy_mem fs.overlay hf (by decide) u
    · intro f hf
      exact foldl_copy_not_mem fs.overlay hf u

/-- Witness for `save_spec`: the read-only no-op branch and the promote
branch, on concrete one-file layers. -/
theorem save_spec_witness :
    (save roFsW = roFsW) ∧
    ((save fsW).readOnly = false ∧ (save fsW).overlay = fsW.overlay ∧
      ∃ u', (save fsW).underlay = some u' ∧
        (∀ f, f ∈ dbFiles → u' f = promoteRule fsW.overlay uLayerW f) ∧
        (∀ f, f ∉ dbFiles → u' f = uLayerW f)) :=
  ⟨(save_spec roFsW).1 (Or.inl rfl), (save_spec fsW).2 uLayerW rfl rfl⟩

/-! ## Construction from parts (C8) -/

/-- Dropping the falsy (`None` and zero-valued) entries does not change
the sum of the present values of an `int` field: the dropped numeric
values are exactly the zeros. -/
theorem filter_truthy_sum_int (values : List (Option Int)) :
    ((values.filter optIntTruthy).filterMap id).sum = (values.filterMap id).sum := by
  induction values with
  | nil => rfl
  | cons v rest ih =>
    cases v with
    | none => simpa [optIntTruthy] using ih
    | some n =>
      by_cases hn : n = 0
      · subst hn
        simpa [optIntTruthy] using ih
      · simpa [optIntTruthy, hn] using ih

/-- Same as `filter_truthy_sum_int` for a `float` field. -/
theorem filter_truthy_sum_rat (values : List (Option Rat)) :
    ((values.filter optRatTruthy).filterMap id).sum = (values.filterMap id).sum := by
  induction values with
  | nil => rfl
  | cons v rest ih =>
    cases v with
    | none => simpa [optRatTruthy] using ih
    | some q =>
      by_cases hq : q = 0
      · subst hq
        simpa [optRatTruthy] using ih
      · simpa [optRatTruthy, hq] using ih

/-- The Python truthy sum of an `int` field equals the spec's null-safe
sum with every zero total collapsed to `None`. -/
theorem pyTruthySumInt_collapse (values : List (Option Int)) :
    pyTruthySumInt values =
      (match specNullSafeSumInt values with
        | none => none
        | some s => if s = 0 then none else some s) := by
  unfold pyTruthySumInt specNullSafeSumInt
  rw [← List.sum_eq_foldl, filter_truthy_sum_int]
  rcases hm : values.filterMap id with _ | ⟨y, ys⟩
  · simp
  · show (if (y :: ys).sum = 0 then none else some ((y :: ys).sum)) =
      if List.foldl (· + ·) 0 (y :: ys) = 0 then none
      else some (List.foldl (· + ·) 0 (y :: ys))
    rw [← List.sum_eq_foldl]

/-- Same as `pyTruthySumInt_collapse` for a `float` field. -/
theorem pyTruthySumRat_collapse (values : List (Option Rat)) :
    pyTruthySumRat values =
      (match specNullSafeSumRat values with
        | none => none
        | some s => if s = 0 then none else some s) := by
  unfold pyTruthySumRat specNullSafeSumRat
  rw [← List.sum_eq_foldl, filter_truthy_sum_rat]
  rcases hm : values.filterMap id with _ | ⟨y, ys⟩
  · simp
  · show (if (y :: ys).sum = 0 then none else some ((y :: ys).sum)) =
      if List.foldl (· + ·) 0 (y :: ys) = 0 then none
      else some (List.foldl (· + ·) 0 (y :: ys))
    rw [← List.sum_eq_foldl]

/-- The embedded `max(present values)` is the library maximum of the
present values. -/
theorem pyMaxRat_eq_max (values : List (Option Rat)) :
    pyMaxRat values = (values.filterMap id).max? := by
  unfold pyMaxRat
  rcases hm : values.filterMap id with _ | ⟨y, ys⟩
  · rfl
  · rfl

/-- The embedded `min(present values)` is the library minimum. -/
theorem pyMinRat_eq_min (values : List (Option Rat)) :
    pyMinRat values = (values.filterMap id).min? := by
  unfold pyMinRat
  rcases hm : values.filterMap id with _ | ⟨y, ys⟩
  · rfl
  · rfl

/-- Integer variant of `pyMaxRat_eq_max`. -/
theorem pyMaxInt_eq_max (values : List (Option Int)) :
    pyMaxInt values = (values.filterMap id).max? := by
  unfold pyMaxInt
  rcases hm : values.filterMap id with _ | ⟨y, ys⟩
  · rfl
  · rfl

/-- Integer variant of `pyMinRat_eq_min`. -/
theorem pyMinInt_eq_min (values : List (Option Int)) :
    pyMinInt values = (values.filterMap id).min? := by
  unfold pyMinInt
  rcases hm : values.filterMap id with _ | ⟨y, ys⟩
  · rfl
  · rfl

/-- C8, counterexample. The claim says distance/ascent/descent/calories
are null-safe sums over the parts that have a value, yielding `None`
only "when no part has a value". The source filters by truthiness and
maps a zero (falsy) total to `None` (`s if (s := sum(...)) else None`):
a single part with `calories == 0` HAS a value, and the claim's
null-safe sum is `0`, yet the constructed activity's calories is `None`. -/
theorem fromParts_zero_sum_refuted :
    specNullSafeSumInt
        ([({ time := some 0, calories := some 0 } : Activity)].map (·.calories)) = some 0 ∧
    (activityFromParts [({ time := some 0, calories := some 0 } : Activity)]).map (·.calories) =
      some none := by
  constructor
  · rfl
  · rfl

/-- C8, amended: for every non-empty (pre-time-sorted) parts list, the
activity constructed via `other_parts` takes `time`, `localtime` and
`timezone` from the first part and `time_end`/`localtime_end` from the
last; sums durations over the parts (absent entries skipped); computes
distance, ascent, descent and calories as the null-safe sum over parts
with a value EXCEPT that zero-valued entries are skipped and a zero
total is reported as `None` (so an all-zero parts list yields `None`,
not `0`); and takes max/min over the present values for
elevation_max/min, speed_max and heartrate_max/min, `None` when no part
has a value. -/
theorem fromParts_aggregation (p : Activity) (rest : List Activity) :
    ∃ r, activityFromParts (p :: rest) = some r ∧
      r.time = p.time ∧
      r.localtime = p.localtime ∧
      r.timezone = p.timezone ∧
      r.time_end = ((p :: rest).getLast (by simp)).time_end ∧
      r.localtime_end = ((p :: rest).getLast (by simp)).localtime_end ∧
      r.duration = some ((((p :: rest).map (·.duration)).filterMap id).sum) ∧
      r.duration_moving = some ((((p :: rest).map (·.duration_moving)).filterMap id).sum) ∧
      r.distance = (match specNullSafeSumRat ((p :: rest).map (·.distance)) with
        | none => none
        | some s => if s = 0 then none else some s) ∧
      r.ascent = (match specNullSafeSumRat ((p :: rest).map (·.ascent)) with
        | none => none
        | some s => if s = 0 then none else some s) ∧
      r.descent = (match specNullSafeSumRat ((p :: rest).map (·.descent)) with
        | none => none
        | some s => if s = 0 then none else some s) ∧
      r.calories = (match specNullSafeSumInt ((p :: rest).map (·.calories)) with
        | none => none
        | some s => if s = 0 then none else some s) ∧
      r.elevation_max = (((p :: rest).map (·.elevation_max)).filterMap id).max? ∧
      r.elevation_min = (((p :: rest).map (·.elevation_min)).filterMap id).min? ∧
      r.speed_max = (((p :: rest).map (·.speed_max)).filterMap id).max? ∧
      r.heartrate_max = (((p :: rest).map (·.heartrate_max)).filterMap id).max? ∧
      r.heartrate_min = (((p :: rest).map (·.heartrate_min)).filterMap id).min? := by
  refine ⟨initFromParts defaultActivity p rest, rfl, rfl, rfl, rfl, rfl, rfl, ?_, ?_, ?_, ?_, ?_,
    ?_, ?_, ?_, ?_, ?_, ?_⟩
  · show sum_times ((p :: rest).map (·.duration)) = _
    unfold sum_times
    rw [← List.sum_eq_foldl]
  · show sum_times ((p :: rest).map (·.duration_moving)) = _
    unfold sum_times
    rw [← List.sum_eq_foldl]
  · exact pyTruthySumRat_collapse _
  · exact pyTruthySumRat_collapse _
  · exact pyTruthySumRat_collapse _
  · exact pyTruthySumInt_collapse _
  · exact pyMaxRat_eq_max _
  · exact pyMinRat_eq_min _
  · exact pyMaxRat_eq_max _
  · exact pyMaxInt_eq_max _
  · exact pyMinInt_eq_min _
